import Mathlib

/-!
Verification development for the `sim-util` worker scripts.

The repository contains two near-duplicate Python scripts implementing a
decentralized job-claiming worker:

* `src/worker.py` (v0.1): regex matching of `os.listdir(basepath)` entries,
  fixed lock name `worker.lock`, `parse()` function for CLI options, a
  `try/finally` around job execution, and `break` at the stop conditions.
* `src/src/worker.py` (v0.3.0): `glob.glob(pattern)` matching, configurable
  `label` for lock/output file names, module-level CLI parsing, no
  `try/finally`, and `exit(0)` at the stop conditions.

We shallowly embed both scripts.  Modelling conventions:

* A filesystem path is a list of name components (`FPath`).  All configured
  paths are treated as absolute.  The one place the source resolves a bare
  name against the process working directory (`os.path.isdir(subdir)` in the
  regex variant) is modelled as resolution against the tracked `cwd`.
* The filesystem is a set of existing regular files and a set of existing
  directories.  File contents are not modelled: no worker logic ever reads
  back the lock, `.out` or `.err` contents (they are advisory).
* External library calls are modelled from their documented semantics:
  `open(p, 'x')` fails exactly when `p` already exists, otherwise atomically
  creates it; `open(p, 'w')` creates-or-truncates; `os.listdir` lists the
  children of an existing directory and raises otherwise; `os.chdir` moves to
  an existing directory and raises otherwise; `subprocess.call` either
  returns the child's exit code or raises (command not launchable); `getopt`
  is modelled below; `re.search` / glob pattern matching are oracles
  (a `String → String → Bool` matcher resp. a `FPath → Bool` predicate).
* Concurrency from other workers is modelled as an adversarial oracle that
  may create the lock file inside the race window between this worker's
  `isfile` check and its `open(p, 'x')`, plus (for the mutual-exclusion
  claim) arbitrary sequential interleavings of the atomic exclusive-create
  step of N workers.
* The wall clock is an oracle `Nat → Rat` indexed by how many times the
  worker has sampled it; elapsed hours are rationals (the scripts use
  floats, but no claim depends on rounding).
* The unbounded `while keep_looping` loop takes a fuel parameter; fuel is
  consumed once per full pass.
-/

/-- A filesystem path (`FPath`), as a list of name components (absolute). -/
abbrev FPath := List String

/-- The shared filesystem: the set of existing regular files and the set of
existing directories.  The worker only ever creates files, so `dirs` is
constant throughout a run. -/
structure FS where
  files : List FPath
  dirs : List FPath
deriving Repr, DecidableEq

/-- Create the file `p` if absent (both `'x'` after its existence check and
`'w'` reduce to this on the path set; contents are not modelled). -/
def addFile (fs : FS) (p : FPath) : FS :=
  if p ∈ fs.files then fs else { fs with files := p :: fs.files }

/-- `open(p, 'x')` as executed by one worker: the single atomic
exclusive-create.  It succeeds (creating the file) iff `p` does not already
exist; the advisory owner line written on success is not modelled since no
worker reads lock contents back. -/
def claimAttempt (fs : FS) (lockfile : FPath) : Bool × FS :=
  if lockfile ∈ fs.files then (false, fs) else (true, addFile fs lockfile)

/-- N workers racing to claim one job directory: an arbitrary interleaving of
their atomic exclusive-create steps is an arbitrary ordering of the workers;
each performs `claimAttempt` once against the shared filesystem.  Returns
each worker paired with the outcome it observed, and the final filesystem. -/
def raceClaims (lockfile : FPath) : List Nat → FS → List (Nat × Bool) × FS
  | [], fs => ([], fs)
  | w :: ws, fs =>
    let r := claimAttempt fs lockfile
    let rest := raceClaims lockfile ws r.2
    ((w, r.1) :: rest.1, rest.2)

/-- `open(p, 'w')`: create-or-truncate `p`; raises (`none`) when the parent
directory does not exist. -/
def openWrite (fs : FS) (p : FPath) : Option FS :=
  if p.dropLast ∈ fs.dirs then some (addFile fs p) else none

/-- The names of the direct children of `base` currently on disk. -/
def childNames (fs : FS) (base : FPath) : List String :=
  (fs.dirs ++ fs.files).filterMap fun p =>
    if p.length = base.length + 1 ∧ p.take base.length = base then p.getLast? else none

/-- `os.listdir(base)`: the child names of an existing directory; raises
(`none`, a `FileNotFoundError`) when `base` is not an existing directory. -/
def listdir (fs : FS) (base : FPath) : Option (List String) :=
  if base ∈ fs.dirs then some (childNames fs base) else none

/-- Python `a.split(sep)` for a single-character separator `sep`, on
character lists: split at every occurrence; adjacent separators yield empty
tokens, and the result is never empty. -/
def splitChar (sep : Char) : List Char → List (List Char)
  | [] => [[]]
  | c :: cs =>
    if c = sep then [] :: splitChar sep cs
    else
      match splitChar sep cs with
      | [] => [[c]]
      | t :: ts => (c :: t) :: ts

/-- Python `a.split(' ')` on the character list of `a`. -/
def splitSpace (cs : List Char) : List (List Char) := splitChar ' ' cs

/-- Is `pre` a prefix of `cs` (Python `str.startswith`)? -/
def hasPre : List Char → List Char → Bool
  | [], _ => true
  | _ :: _, [] => false
  | p :: ps, c :: cs => p == c && hasPre ps cs

/-- First-match association lookup (the library `dict`-style lookups, kept
structural so concrete runs evaluate). -/
def lookupEq {α β : Type} [DecidableEq α] (k : α) : List (α × β) → Option β
  | [] => none
  | (a, b) :: rest => if a = k then some b else lookupEq k rest

/-- Accumulate decimal digits. -/
def decNatGo (acc : Nat) : List Char → Option Nat
  | [] => some acc
  | c :: cs =>
    if 48 ≤ c.toNat ∧ c.toNat ≤ 57 then decNatGo (acc * 10 + (c.toNat - 48)) cs
    else none

/-- An unsigned decimal literal. -/
def decNat? : List Char → Option Nat
  | [] => none
  | cs => decNatGo 0 cs

/-- Python `int(a)` on the plain (optionally signed) decimal literals the
claims exercise; other accepted forms (whitespace, underscores, bases) are
out of the exercised scope. -/
def decInt? : List Char → Option Int
  | '-' :: rest => (decNat? rest).map fun n => -(n : Int)
  | '+' :: rest => (decNat? rest).map fun n => (n : Int)
  | cs => (decNat? cs).map fun n => (n : Int)

/-- The `-c`/`--cmd` tokenization both scripts perform:
`for tok in a.split(' '): cmd.append(tok)`. -/
def strSplitSpace (a : String) : List String :=
  (splitSpace a.data).map fun cs => String.mk cs

/-- Outcome of the `subprocess.call(cmd, stdout = g, stderr = h)` invocation,
keyed by the job directory: either the child terminated with an exit code
(which the worker ignores), or the command could not be launched at all
(binary not found, exec permission denied), in which case Python raises the
error in the worker process. -/
inductive ExecBehavior where
  | ret (code : Int)
  | raiseErr
deriving Repr, DecidableEq

/-- The process-local mutable state of one worker: the shared filesystem, the
process working directory, and the loop counters `keep_looping`,
`processed_jobs`, plus a counter of wall-clock samples taken so far (feeding
the clock oracle). -/
structure WState where
  fs : FS
  cwd : FPath
  keep_looping : Bool
  processed_jobs : Nat
  ticks : Nat
deriving Repr, DecidableEq

/-- How a whole worker run ends: fell out of the main loop normally
(`logging.info("Done")`), called `exit(0)` at a stop condition, crashed on an
uncaught exception, or the fuel for the unbounded `while` ran out. -/
inductive Outcome where
  | finished (st : WState)
  | exited (st : WState)
  | crashed (st : WState)
  | fuelOut (st : WState)
deriving Repr, DecidableEq

/-- Local control flow while iterating candidates: continue with the next
candidate, `break` out of the current inner loop (regex variant stop
conditions), or stop the whole run with a final `Outcome`. -/
inductive Step where
  | cont (st : WState)
  | brk (st : WState)
  | stop (o : Outcome)
deriving Repr, DecidableEq

/-- The state carried by an `Outcome`. -/
def outState : Outcome → WState
  | .finished st | .exited st | .crashed st | .fuelOut st => st

/-- The state carried by a `Step`. -/
def stepState : Step → WState
  | .cont st | .brk st => st
  | .stop o => outState o

def cwdOf (o : Outcome) : FPath := (outState o).cwd

def processedOf (o : Outcome) : Nat := (outState o).processed_jobs

def fsOf (o : Outcome) : FS := (outState o).fs

def isFinished : Outcome → Bool
  | .finished _ => true
  | _ => false

def isCrashed : Outcome → Bool
  | .crashed _ => true
  | _ => false

/-- `sys.maxsize` on a 64-bit CPython, the default for `max_jobs` in both
scripts (and for `max_hours` in the regex variant). -/
def sysMaxsize : Int := 2 ^ 63 - 1

/-- Environment of the glob variant (`src/src/worker.py`): the label prefix,
the race oracle (does another worker create this lock file inside this
worker's check-then-create window?), the `subprocess.call` oracle, the wall
clock oracle, and the configured limits (`max_hours = None` models the
default `float('inf')`). -/
structure GlobEnv where
  label : String
  race : FPath → Bool
  exec : FPath → ExecBehavior
  clock : Nat → Rat
  max_jobs : Int
  max_hours : Option Rat

/-- `src/src/worker.py` lines 196-206: after every candidate that reached the
claim stage, recompute `elapsed_hours` and `exit(0)` when a limit is hit.
`processed_jobs >= max_jobs` is an `Int` comparison because `int(a)` may be
negative; `elapsed_hours >= float('inf')` is always false. -/
def globChecks (env : GlobEnv) (st : WState) : Step :=
  let elapsed := env.clock st.ticks
  let st1 := { st with ticks := st.ticks + 1 }
  if (st1.processed_jobs : Int) ≥ env.max_jobs then .stop (.exited st1)
  else
    match env.max_hours with
    | some h => if elapsed ≥ h then .stop (.exited st1) else .cont st1
    | none => .cont st1

/-- `src/src/worker.py` lines 180-194: the `if acquired_lock:` block.  Change
into the job directory, truncate-open `<label>.out` and `<label>.err`
(relative names, hence inside the job directory), run the command, increment
`processed_jobs`, change back.  There is no `try/finally` in this variant:
any exception leaves the run with the working directory as it stands. -/
def globRunJob (env : GlobEnv) (home : FPath) (entry : FPath) (st : WState) : Step :=
  if entry ∈ st.fs.dirs then
    let st3 := { st with cwd := entry }
    match openWrite st3.fs (entry ++ [env.label ++ ".out"]) with
    | none => .stop (.crashed st3)
    | some fs4 =>
      match openWrite fs4 (entry ++ [env.label ++ ".err"]) with
      | none => .stop (.crashed { st3 with fs := fs4 })
      | some fs5 =>
        match env.exec entry with
        | .raiseErr => .stop (.crashed { st3 with fs := fs5 })
        | .ret _ =>
          let st6 := { st3 with fs := fs5, processed_jobs := st3.processed_jobs + 1 }
          if home ∈ st6.fs.dirs then globChecks env { st6 with cwd := home }
          else .stop (.crashed st6)
  else .stop (.crashed st)

/-- `src/src/worker.py` lines 169-194: the claim attempt on an unlocked
candidate (`keep_looping` has already been set).  Another racing worker may
create the lock inside the window; `open(lockfile, 'x')` then raises
`FileExistsError`, which is caught, leaving `acquired_lock = False` and
falling through to the stop-condition checks. -/
def globAttempt (env : GlobEnv) (home : FPath) (entry : FPath) (lockfile : FPath)
    (st : WState) : Step :=
  let st1 := { st with fs := if env.race lockfile then addFile st.fs lockfile else st.fs }
  if lockfile ∈ st1.fs.files then globChecks env st1
  else globRunJob env home entry { st1 with fs := addFile st1.fs lockfile }

/-- `src/src/worker.py` lines 150-206, body of `for entry in glob.glob(...)`:
skip non-directories; skip candidates whose lock file exists; otherwise set
`keep_looping = True` and attempt the claim. -/
def globStep (env : GlobEnv) (home : FPath) (entry : FPath) (st : WState) : Step :=
  if entry ∈ st.fs.dirs then
    let lockfile := entry ++ [env.label ++ ".lock"]
    if lockfile ∈ st.fs.files then .cont st
    else globAttempt env home entry lockfile { st with keep_looping := true }
  else .cont st

/-- Iterate `globStep` over the candidates of one pattern. -/
def globEntries (env : GlobEnv) (home : FPath) : List FPath → WState → Step
  | [], st => .cont st
  | e :: es, st =>
    match globStep env home e st with
    | .cont st1 => globEntries env home es st1
    | r => r

/-- `glob.glob(pattern)`: the currently existing filesystem entries matching
the pattern predicate, re-evaluated fresh against the live filesystem. -/
def globList (fs : FS) (m : FPath → Bool) : List FPath :=
  (fs.dirs ++ fs.files).filter m

/-- `src/src/worker.py` lines 145-206: one full pass of the `for i in
range(L)` loop over all patterns. -/
def globPatterns (env : GlobEnv) (home : FPath) : List (FPath → Bool) → WState → Step
  | [], st => .cont st
  | m :: ms, st =>
    match globEntries env home (globList st.fs m) st with
    | .cont st1 => globPatterns env home ms st1
    | r => r

/-- `src/src/worker.py` lines 138-208: the `while keep_looping` main loop,
with `keep_looping` reset to `False` at the start of every pass.  Fuel bounds
the number of passes. -/
def globLoop (env : GlobEnv) (home : FPath) (patterns : List (FPath → Bool)) :
    Nat → WState → Outcome
  | 0, st => .fuelOut st
  | fuel + 1, st =>
    if st.keep_looping then
      match globPatterns env home patterns { st with keep_looping := false } with
      | .cont st1 => globLoop env home patterns fuel st1
      | .brk st1 => globLoop env home patterns fuel st1
      | .stop o => o
    else .finished st

/-- A whole glob-variant run from a given filesystem and working directory
(`cwd = os.getcwd()` is captured once and used as the restore target). -/
def runGlobWorker (env : GlobEnv) (patterns : List (FPath → Bool)) (fs0 : FS)
    (cwd0 : FPath) (fuel : Nat) : Outcome :=
  globLoop env cwd0 patterns fuel ⟨fs0, cwd0, true, 0, 0⟩

/-- Environment of the regex variant (`src/worker.py`): the `re.search`
oracle (`matcher pattern name` = does the unanchored search match?), the race
and exec oracles, the clock, and the limits.  Because of the `parse()` bug
(see `regexOptsLoop`) real runs always have `max_jobs = max_hours =
sys.maxsize`, but the run functions take them as parameters. -/
structure RegexEnv where
  matcher : String → String → Bool
  race : FPath → Bool
  exec : FPath → ExecBehavior
  clock : Nat → Rat
  max_jobs : Int
  max_hours : Rat

/-- `src/worker.py` lines 179-189: after every candidate that reached the
claim stage, recompute `elapsed_hours`; hitting a limit executes `break`,
which only leaves the inner `for subdir` loop (not the `for i` pattern loop,
not the `while`). -/
def regexChecks (env : RegexEnv) (st : WState) : Step :=
  let elapsed := env.clock st.ticks
  let st1 := { st with ticks := st.ticks + 1 }
  if (st1.processed_jobs : Int) ≥ env.max_jobs then .brk st1
  else if elapsed ≥ env.max_hours then .brk st1
  else .cont st1

/-- The `finally: os.chdir(homepath)` clause (`src/worker.py` lines 175-177);
`os.chdir` itself raises if `homepath` no longer exists. -/
def finChdir (home : FPath) (st : WState) : Option WState :=
  if home ∈ st.fs.dirs then some { st with cwd := home } else none

/-- Leave the `try` block normally: run the `finally` chdir, then fall
through to the stop-condition checks. -/
def finallyThen (env : RegexEnv) (home : FPath) (st : WState) : Step :=
  match finChdir home st with
  | some st1 => regexChecks env st1
  | none => .stop (.crashed st)

/-- Leave the `try` block on an exception that `except FileExistsError` does
not catch: the `finally` chdir still runs, then the exception propagates and
the worker crashes. -/
def finallyCrash (home : FPath) (st : WState) : Step :=
  match finChdir home st with
  | some st1 => .stop (.crashed st1)
  | none => .stop (.crashed st)

/-- `src/worker.py` lines 161-172: after the lock was acquired, change into
the job directory `path = os.path.join(basepath, subdir)`, truncate-open
`path/worker.out` and `path/worker.err`, run the command, and increment
`processed_jobs` — all still inside the `try`, so any exception runs the
`finally` chdir and then crashes the worker. -/
def regexRunJob (env : RegexEnv) (home : FPath) (jobdir : FPath) (st : WState) : Step :=
  if jobdir ∈ st.fs.dirs then
    let st3 := { st with cwd := jobdir }
    match openWrite st3.fs (jobdir ++ ["worker.out"]) with
    | none => finallyCrash home st3
    | some fs4 =>
      match openWrite fs4 (jobdir ++ ["worker.err"]) with
      | none => finallyCrash home { st3 with fs := fs4 }
      | some fs5 =>
        match env.exec jobdir with
        | .raiseErr => finallyCrash home { st3 with fs := fs5 }
        | .ret _ =>
          finallyThen env home
            { st3 with fs := fs5, processed_jobs := st3.processed_jobs + 1 }
  else finallyCrash home st

/-- `src/worker.py` lines 133-189, body of `for subdir in os.listdir(...)`.
Note the first guard: the source tests `os.path.isdir(subdir)` on the bare
entry name, which the OS resolves against the process working directory, not
against `basepath`.  The lock file path, by contrast, is correctly joined
under `basepath`.  On an unlocked candidate, `keep_looping` is set and
`open(lockfile, 'x')` is attempted inside `try/except
FileExistsError/finally`; a racing worker may create the lock first. -/
def regexStep (env : RegexEnv) (home : FPath) (basepath : FPath) (pattern : String)
    (name : String) (st : WState) : Step :=
  if (st.cwd ++ [name]) ∈ st.fs.dirs then
    if env.matcher pattern name then
      let lockfile := basepath ++ [name, "worker.lock"]
      if lockfile ∈ st.fs.files then .cont st
      else
        let st1 := { st with keep_looping := true }
        let st2 := { st1 with fs := if env.race lockfile then addFile st1.fs lockfile else st1.fs }
        if lockfile ∈ st2.fs.files then finallyThen env home st2
        else if (basepath ++ [name]) ∈ st2.fs.dirs then
          regexRunJob env home (basepath ++ [name]) { st2 with fs := addFile st2.fs lockfile }
        else finallyCrash home st2
    else .cont st
  else .cont st

/-- Iterate `regexStep` over the entry names of one basepath; `break` aborts
the rest of this basepath's candidates only. -/
def regexEntries (env : RegexEnv) (home : FPath) (basepath : FPath) (pattern : String) :
    List String → WState → Step
  | [], st => .cont st
  | n :: ns, st =>
    match regexStep env home basepath pattern n st with
    | .cont st1 => regexEntries env home basepath pattern ns st1
    | r => r

/-- `src/worker.py` lines 127-189: one full pass over the paired
`(basepath, pattern)` list.  `os.listdir` on a missing basepath raises an
uncaught `FileNotFoundError`; a `break` from the inner loop just moves on to
the next basepath. -/
def regexPairs (env : RegexEnv) (home : FPath) : List (FPath × String) → WState → Step
  | [], st => .cont st
  | (b, p) :: rest, st =>
    match listdir st.fs b with
    | none => .stop (.crashed st)
    | some names =>
      match regexEntries env home b p names st with
      | .cont st1 => regexPairs env home rest st1
      | .brk st1 => regexPairs env home rest st1
      | .stop o => .stop o

/-- `src/worker.py` lines 121-191: the `while keep_looping` main loop. -/
def regexLoop (env : RegexEnv) (home : FPath) (pairs : List (FPath × String)) :
    Nat → WState → Outcome
  | 0, st => .fuelOut st
  | fuel + 1, st =>
    if st.keep_looping then
      match regexPairs env home pairs { st with keep_looping := false } with
      | .cont st1 => regexLoop env home pairs fuel st1
      | .brk st1 => regexLoop env home pairs fuel st1
      | .stop o => o
    else .finished st

/-- A whole regex-variant run; `homepath = os.getcwd()` is captured at start
and is the `finally` restore target. -/
def runRegexWorker (env : RegexEnv) (pairs : List (FPath × String)) (fs0 : FS)
    (cwd0 : FPath) (fuel : Nat) : Outcome :=
  regexLoop env cwd0 pairs fuel ⟨fs0, cwd0, true, 0, 0⟩

/-- A `getopt.getopt` option specification: short options (letter, takes an
argument?) from the optstring, long options (name, takes an argument?) from
`longopts` (a trailing `=` means the option takes an argument). -/
structure OptSpec where
  shorts : List (Char × Bool)
  longs : List (String × Bool)

/-- Process one `-xyz` token of bunched short options (Python
`getopt.do_shorts`): a letter that takes an argument consumes the rest of
the token, or the next argument, failing with `GetoptError` ("option -x
requires argument") when neither exists. -/
def getoptShorts (spec : OptSpec) : List Char → List String →
    Except String (List (String × String) × List String)
  | [], rest => .ok ([], rest)
  | c :: cs, rest =>
    match lookupEq c spec.shorts with
    | none => .error ("option -" ++ String.mk [c] ++ " not recognized")
    | some true =>
      if cs.isEmpty then
        match rest with
        | [] => .error ("option -" ++ String.mk [c] ++ " requires argument")
        | a :: rest1 => .ok ([("-" ++ String.mk [c], a)], rest1)
      else .ok ([("-" ++ String.mk [c], String.mk cs)], rest)
    | some false =>
      match getoptShorts spec cs rest with
      | .ok (opts, rest1) => .ok (("-" ++ String.mk [c], "") :: opts, rest1)
      | .error e => .error e

/-- Process one `--name[=value]` token (Python `getopt.do_longs`; exact name
matching — the claims exercise no abbreviated long options). -/
def getoptLong (spec : OptSpec) (body : List Char) (rest : List String) :
    Except String (List (String × String) × List String) :=
  match splitChar '=' body with
  | [] => .error "empty long option"
  | nmcs :: vs =>
    let nm := String.mk nmcs
    let value? := if vs.isEmpty then none else some (String.mk (List.intercalate ['='] vs))
    match lookupEq nm spec.longs with
    | none => .error ("option --" ++ nm ++ " not recognized")
    | some true =>
      match value? with
      | some v => .ok ([("--" ++ nm, v)], rest)
      | none =>
        match rest with
        | [] => .error ("option --" ++ nm ++ " requires argument")
        | a :: rest1 => .ok ([("--" ++ nm, a)], rest1)
    | some false =>
      match value? with
      | some _ => .error ("option --" ++ nm ++ " must not have an argument")
      | none => .ok ([("--" ++ nm, "")], rest)

/-- `getopt.getopt(args, shortopts, longopts)`: scan options left to right,
stopping at `--` or at the first non-option token; the remainder are the
positional arguments.  Structured with a fuel counter that the wrapper sets
to the argument count (each iteration consumes at least one token, so the
fuel never runs out on the wrapper's calls). -/
def getoptGo (spec : OptSpec) : Nat → List String →
    Except String (List (String × String) × List String)
  | 0, _ => .error "getopt fuel exhausted"
  | _ + 1, [] => .ok ([], [])
  | fuel + 1, arg :: rest =>
    if arg = "--" then .ok ([], rest)
    else if hasPre ['-', '-'] arg.data then
      match getoptLong spec (arg.data.drop 2) rest with
      | .error e => .error e
      | .ok (opts, rest1) =>
        match getoptGo spec fuel rest1 with
        | .error e => .error e
        | .ok (opts2, args2) => .ok (opts ++ opts2, args2)
    else if hasPre ['-'] arg.data && arg ≠ "-" then
      match getoptShorts spec (arg.data.drop 1) rest with
      | .error e => .error e
      | .ok (opts, rest1) =>
        match getoptGo spec fuel rest1 with
        | .error e => .error e
        | .ok (opts2, args2) => .ok (opts ++ opts2, args2)
    else .ok ([], arg :: rest)

/-- `getopt.getopt` on an argument vector. -/
def getopt (spec : OptSpec) (argv : List String) :
    Except String (List (String × String) × List String) :=
  getoptGo spec (argv.length + 1) argv

/-- How a CLI invocation resolves before the main loop starts. -/
inductive CliResult (α : Type) where
  | ok (cfg : α)
  | exitZero
  | getoptErr (msg : String)
  | usageExit
  | configErr (msg : String)
  | valueErr (msg : String)
deriving Repr, DecidableEq

def isGetoptErr {α : Type} : CliResult α → Bool
  | .getoptErr _ => true
  | _ => false

def isValueErr {α : Type} : CliResult α → Bool
  | .valueErr _ => true
  | _ => false

/-- The configuration the regex variant's module globals hold after
`parse()` returns. -/
structure RConfig where
  basepaths : List String
  patterns : List String
  cmd : List String
  max_jobs : Int
  max_hours : Rat
deriving Repr, DecidableEq

/-- `src/worker.py` lines 55-75, the option loop of `parse()`.  The source
tests each option against every `if` in turn; since each produced option
string matches at most one branch, an `if/else if` chain is equivalent (the
`o in ("--maxjobs")` membership tests are substring tests on a plain string,
which also reduce to equality for every producible option string).
`-v`/`--version` and `-h`/`--help` print and `sys.exit()` (status 0).
CRITICALLY, the `--maxjobs` and `--maxhours` branches assign to the
function-local names `maxjobs`/`maxhours`; the module globals
`max_jobs`/`max_hours` that the main loop reads are never updated, so both
branches have no observable effect. -/
def regexOptsLoop : List (String × String) → RConfig → CliResult RConfig
  | [], cfg => .ok cfg
  | (o, a) :: rest, cfg =>
    if o = "-v" ∨ o = "--version" then .exitZero
    else if o = "-h" ∨ o = "--help" then .exitZero
    else if o = "-b" ∨ o = "--basepath" then
      regexOptsLoop rest { cfg with basepaths := cfg.basepaths ++ [a] }
    else if o = "-p" ∨ o = "--pattern" then
      regexOptsLoop rest { cfg with patterns := cfg.patterns ++ [a] }
    else if o = "-c" ∨ o = "--cmd" then
      regexOptsLoop rest { cfg with cmd := cfg.cmd ++ strSplitSpace a }
    else regexOptsLoop rest cfg

def regexOptSpec : OptSpec :=
  { shorts := [('v', false), ('h', false), ('b', true), ('p', true), ('c', true)],
    longs := [("version", false), ("help", false), ("basepath", true), ("pattern", true),
              ("cmd", true), ("maxjobs", true), ("maxhours", true)] }

/-- `src/worker.py` `parse()` (lines 48-87): getopt (a `GetoptError`
propagates uncaught), the option loop, the `int(arg)` conversion of the
positional operands (a `ValueError` becomes `SystemExit(USAGE)`), then the
presence checks (`RuntimeError`).  `String.toInt?` models `int()` on the
plain decimal literals the claims exercise. -/
def regexCli (argv : List String) : CliResult RConfig :=
  match getopt regexOptSpec argv with
  | .error e => .getoptErr e
  | .ok (options, arguments) =>
    match regexOptsLoop options ⟨[], [], [], sysMaxsize, (sysMaxsize : Rat)⟩ with
    | .ok cfg =>
      if arguments.all (fun s => (decInt? s.data).isSome) then
        if cfg.basepaths = [] then .configErr "Must provide at least one basepath"
        else if cfg.patterns = [] then .configErr "Must provide at least one pattern"
        else if cfg.cmd = [] then .configErr "Must provide a command"
        else .ok cfg
      else .usageExit
    | r => r

/-- The configuration the glob variant's module globals hold after the
module-level parsing block. -/
structure GConfig where
  patterns : List String
  cmd : List String
  max_jobs : Int
  max_hours : Option Rat
  label : String
deriving Repr, DecidableEq

/-- Python `float(a)` on the plain decimal literals the claims exercise
(optional sign, digits, optional fraction); exotic forms (exponents,
`inf`/`nan`, underscores) are out of the exercised scope and rejected. -/
def ratParse (s : String) : Option Rat :=
  let neg := hasPre ['-'] s.data
  let s1 := if neg then s.data.drop 1 else s.data
  let q? : Option Rat :=
    match splitChar '.' s1 with
    | [i] => (decNat? i).map fun n => (n : Rat)
    | [i, f] =>
      match decNat? i, decNat? f with
      | some n, some fr => some ((n : Rat) + (fr : Rat) / ((10 : Rat) ^ f.length))
      | _, _ => none
    | _ => none
  q?.map fun q => if neg then -q else q

/-- `src/src/worker.py` lines 76-97, the module-level option loop.  Unlike
the regex variant, `--maxjobs`/`--maxhours`/`--label` really update the
module globals; `int(a)` / `float(a)` raise `ValueError` on malformed input,
which nothing catches. -/
def globOptsLoop : List (String × String) → GConfig → CliResult GConfig
  | [], cfg => .ok cfg
  | (o, a) :: rest, cfg =>
    if o = "-v" ∨ o = "--version" then .exitZero
    else if o = "-h" ∨ o = "--help" then .exitZero
    else if o = "-p" ∨ o = "--pattern" then
      globOptsLoop rest { cfg with patterns := cfg.patterns ++ [a] }
    else if o = "-c" ∨ o = "--cmd" then
      globOptsLoop rest { cfg with cmd := cfg.cmd ++ strSplitSpace a }
    else if o = "--maxjobs" then
      match decInt? a.data with
      | none => .valueErr ("invalid literal for int(): " ++ a)
      | some n => globOptsLoop rest { cfg with max_jobs := n }
    else if o = "--maxhours" then
      match ratParse a with
      | none => .valueErr ("could not convert string to float: " ++ a)
      | some q => globOptsLoop rest { cfg with max_hours := some q }
    else if o = "--label" then globOptsLoop rest { cfg with label := a }
    else globOptsLoop rest cfg

/-- The glob variant's `getopt` call (`src/src/worker.py` lines 70-75): note
the short optstring is `'vh:p:c:'`, so `-h` DOES take an argument here. -/
def globOptSpec : OptSpec :=
  { shorts := [('v', false), ('h', true), ('p', true), ('c', true)],
    longs := [("version", false), ("help", false), ("pattern", true), ("cmd", true),
              ("maxjobs", true), ("maxhours", true), ("label", true)] }

/-- `src/src/worker.py` lines 63-107: the whole module-level parsing block of
the glob variant. -/
def globCli (argv : List String) : CliResult GConfig :=
  match getopt globOptSpec argv with
  | .error e => .getoptErr e
  | .ok (options, arguments) =>
    match globOptsLoop options ⟨[], [], sysMaxsize, none, "worker"⟩ with
    | .ok cfg =>
      if arguments.all (fun s => (decInt? s.data).isSome) then
        if cfg.patterns = [] then .configErr "Must provide at least one pattern. Use -h for help"
        else if cfg.cmd = [] then .configErr "Must provide a command. Use -h for help"
        else .ok cfg
      else .usageExit
    | r => r

/-- `re.search` oracle that matches every name (e.g. the pattern `""`). -/
def matchAll : String → String → Bool := fun _ _ => true

/-- A benign environment oracle set: no racing worker, every command runs
and exits 0, the clock never advances. -/
def envR0 (mj : Int) (mh : Rat) : RegexEnv :=
  ⟨matchAll, fun _ => false, fun _ => ExecBehavior.ret 0, fun _ => 0, mj, mh⟩

/-- The failing invocation for the job-limit claim: `--maxjobs=2` with five
unclaimed job directories (the regex variant, run from inside the basepath
so that its cwd-relative `isdir` test finds the candidates). -/
def args2 : List String := ["-b", "jobs", "-p", "", "-c", "run", "--maxjobs=2"]

/-- What `parse()` actually leaves in the module globals for `args2`:
`max_jobs` is still `sys.maxsize`. -/
def cfg2 : RConfig := ⟨["jobs"], [""], ["run"], sysMaxsize, (sysMaxsize : Rat)⟩

/-- Five unclaimed job directories under `/jobs`. -/
def fs2 : FS :=
  ⟨[],
   [["jobs"], ["jobs", "job_1"], ["jobs", "job_2"], ["jobs", "job_3"],
    ["jobs", "job_4"], ["jobs", "job_5"]]⟩

/-- The regex-variant run of `args2`: the limits the run sees are the ones
`parse()` left behind (`cfg2.max_jobs`, `cfg2.max_hours`). -/
def run2 : Outcome :=
  runRegexWorker (envR0 cfg2.max_jobs cfg2.max_hours) [(["jobs"], "")] fs2 ["jobs"] 3

/-- Scenario for the directory-matcher claim: basepath `/jobs` contains the
directory `job_a`, and the worker's cwd is `/home` (which has no `job_a`). -/
def fs4 : FS := ⟨[], [["home"], ["jobs"], ["jobs", "job_a"]]⟩

/-- The regex variant run over `/jobs` from cwd `/home`. -/
def run4home : Outcome :=
  runRegexWorker (envR0 sysMaxsize (sysMaxsize : Rat)) [(["jobs"], "job")] fs4 ["home"] 3

/-- The same run started from cwd `/jobs` instead (the only layout in which
the cwd-relative `isdir` test finds the basepath's children). -/
def run4jobs : Outcome :=
  runRegexWorker (envR0 sysMaxsize (sysMaxsize : Rat)) [(["jobs"], "job")] fs4 ["jobs"] 3

/-- A glob-variant environment in which the job command cannot be launched:
`subprocess.call` raises. -/
def envGRaise : GlobEnv :=
  ⟨"worker", fun _ => false, fun _ => ExecBehavior.raiseErr, fun _ => 0, sysMaxsize, none⟩

/-- One unclaimed job directory `/base/job_b` for the cwd-restoration claim. -/
def fs5 : FS := ⟨[], [["base"], ["base", "job_b"]]⟩

/-- Glob-variant run from `/base` that claims `/base/job_b` and then fails to
launch the command. -/
def run5 : Outcome :=
  runGlobWorker envGRaise [fun p => p == ["base", "job_b"]] fs5 ["base"] 3

/-- One unclaimed job directory `/h/job_a` for the launch-failure claim. -/
def fs6 : FS := ⟨[], [["h"], ["h", "job_a"]]⟩

/-- Glob-variant run from `/h` whose command cannot be launched. -/
def run6g : Outcome :=
  runGlobWorker envGRaise [fun p => p == ["h", "job_a"]] fs6 ["h"] 3

/-- The matching regex-variant run (basepath `/j` with job `/j/a`, started
from `/j`) whose command cannot be launched. -/
def envRRaise : RegexEnv :=
  ⟨matchAll, fun _ => false, fun _ => ExecBehavior.raiseErr, fun _ => 0, sysMaxsize,
   (sysMaxsize : Rat)⟩

def fs6r : FS := ⟨[], [["j"], ["j", "a"]]⟩

def run6r : Outcome := runRegexWorker envRRaise [(["j"], "")] fs6r ["j"] 3

/-- A regex-variant run whose configured basepath `/gone` does not exist. -/
def run7 : Outcome :=
  runRegexWorker (envR0 sysMaxsize (sysMaxsize : Rat)) [(["gone"], "")] ⟨[], [["h"]]⟩ ["h"] 3

/-- A glob pattern matching exactly `/h/job_a`. -/
def mC3 : FPath → Bool := fun p => p == ["h", "job_a"]

/-- A benign glob-variant environment for the pass-invariant witness. -/
def envC3 : GlobEnv :=
  ⟨"worker", fun _ => false, fun _ => ExecBehavior.ret 0, fun _ => 0, sysMaxsize, none⟩

/-- A pass-start state in which the only matching directory `/h/job_a` is
already locked. -/
def stC3 : WState :=
  ⟨⟨[["h", "job_a", "worker.lock"]], [["h"], ["h", "job_a"]]⟩, ["h"], false, 0, 0⟩

/-! ## Basic lemmas -/

theorem mem_addFile_self (fs : FS) (p : FPath) : p ∈ (addFile fs p).files := by
  unfold addFile
  split
  · assumption
  · exact List.mem_cons_self _ _

theorem raceClaims_locked (lockfile : FPath) (ws : List Nat) :
    ∀ fs : FS, lockfile ∈ fs.files →
      (raceClaims lockfile ws fs).1 = ws.map fun w => (w, false) := by
  induction ws with
  | nil => intro fs _; rfl
  | cons w ws ih =>
    intro fs h
    simp only [raceClaims, claimAttempt, if_pos h, List.map_cons]
    exact congrArg _ (ih fs h)

theorem splitChar_not_mem (sep : Char) :
    ∀ cs t, t ∈ splitChar sep cs → sep ∉ t := by
  intro cs
  induction cs with
  | nil =>
    intro t ht
    simp only [splitChar, List.mem_singleton] at ht
    subst ht
    simp
  | cons c cs ih =>
    intro t ht
    by_cases hc : c = sep
    · rw [splitChar, if_pos hc] at ht
      rcases List.mem_cons.mp ht with h | h
      · subst h; simp
      · exact ih t h
    · rw [splitChar, if_neg hc] at ht
      cases hs : splitChar sep cs with
      | nil =>
        rw [hs] at ht
        simp only [List.mem_singleton] at ht
        subst ht
        intro hmem
        rcases List.mem_cons.mp hmem with h1 | h1
        · exact hc h1.symm
        · simp at h1
      | cons t0 ts =>
        rw [hs] at ht
        rcases List.mem_cons.mp ht with h | h
        · subst h
          intro hmem
          rcases List.mem_cons.mp hmem with h1 | h1
          · exact hc h1.symm
          · exact ih t0 (hs ▸ List.mem_cons_self _ _) h1
        · exact ih t (hs ▸ List.mem_cons_of_mem _ h)

/-! ## Claim theorems -/

/-- C1: for every job directory and every nonempty set of workers racing to
claim it through the exclusive-create of the lock marker (`open(lockfile,
'x')`), under every interleaving of their atomic create steps exactly one
worker observes a successful claim and all the others observe that the lock
already exists; since a worker runs the job command only on a successful
claim, no two workers both run the directory's command. -/
theorem race_mutual_exclusion (lockfile : FPath) (fs : FS) (ws : List Nat)
    (h1 : lockfile ∉ fs.files) (h2 : ws ≠ []) :
    (((raceClaims lockfile ws fs).1.filter fun p => p.2).length = 1) ∧
    (((raceClaims lockfile ws fs).1.filter fun p => !p.2).length = ws.length - 1) := by
  match ws, h2 with
  | w :: ws1, _ =>
    have hall := raceClaims_locked lockfile ws1 (addFile fs lockfile)
      (mem_addFile_self fs lockfile)
    simp only [raceClaims, claimAttempt, if_neg h1, hall]
    simp [List.filter_map, Function.comp_def]

/-- Witness for C1: three workers race for `/d/worker.lock` on an empty
filesystem; exactly one claim succeeds, two observe the existing lock. -/
theorem race_mutual_exclusion_witness :
    (((raceClaims ["d", "worker.lock"] [1, 2, 3] ⟨[], [["d"]]⟩).1.filter
        fun p => p.2).length = 1) ∧
    (((raceClaims ["d", "worker.lock"] [1, 2, 3] ⟨[], [["d"]]⟩).1.filter
        fun p => !p.2).length = [1, 2, 3].length - 1) :=
  race_mutual_exclusion ["d", "worker.lock"] ⟨[], [["d"]]⟩ [1, 2, 3]
    (by decide) (by decide)

/-- C10: the `-c`/`--cmd` option string is tokenized by splitting on single
space characters only — no token ever contains a space (so no argument with
a space can reach the job command), consecutive spaces produce empty-string
arguments, and quote characters are ordinary characters (no quoting or
escaping mechanism). -/
theorem cmd_split_single_spaces (a t : List Char) (h : t ∈ splitSpace a) :
    ' ' ∉ t ∧ strSplitSpace "run -n  5" = ["run", "-n", "", "5"] ∧
    strSplitSpace "echo \"a b\"" = ["echo", "\"a", "b\""] :=
  ⟨splitChar_not_mem ' ' a t h, by decide, by decide⟩

/-- Witness for C10 at the input `"x y"` and its first token `"x"`. -/
theorem cmd_split_single_spaces_witness :
    ' ' ∉ ['x'] ∧ strSplitSpace "run -n  5" = ["run", "-n", "", "5"] ∧
    strSplitSpace "echo \"a b\"" = ["echo", "\"a", "b\""] :=
  cmd_split_single_spaces ['x', ' ', 'y'] ['x'] (by decide)

/-- C2 (code bug, `src/worker.py`): invoked with `--maxjobs=2` over five
unclaimed job directories, the regex variant parses the invocation without
complaint but `parse()` stores the value in a discarded function-local, so
the module-level `max_jobs` the loop checks stays `sys.maxsize`; the worker
therefore processes all five jobs and ends by quiescence instead of stopping
the process after two (its stop check is also only a `break` out of the
inner candidate loop). -/
theorem regex_maxjobs_ignored_run :
    regexCli args2 = .ok cfg2 ∧ cfg2.max_jobs = sysMaxsize ∧
    processedOf run2 = 5 ∧ isFinished run2 = true := by
  refine ⟨by decide, by decide, by decide, by decide⟩

/-- C4 (code bug, `src/worker.py`): the regex variant tests
`os.path.isdir(subdir)` on the bare entry name, which resolves against the
worker's current directory instead of the basepath.  With basepath `/jobs`
containing the matching directory `job_a` and the worker started from
`/home`, the candidate is skipped and nothing is ever claimed (the run ends
with the filesystem unchanged); the identical run started from `/jobs`
itself claims and processes the job. -/
theorem regex_isdir_cwd_bug :
    processedOf run4home = 0 ∧ fsOf run4home = fs4 ∧ isFinished run4home = true ∧
    processedOf run4jobs = 1 := by
  refine ⟨by decide, by decide, by decide, by decide⟩

/-- C5 counterexample (glob variant, `src/src/worker.py`): when launching the
job command raises, there is no `try/finally` — the worker crashes with the
job directory `/base/job_b` still current, not the original `/base`. -/
theorem glob_cwd_not_restored_on_error :
    isCrashed run5 = true ∧ cwdOf run5 = ["base", "job_b"] ∧
    ¬ cwdOf run5 = ["base"] := by
  refine ⟨by decide, by decide, by decide⟩

/-- C6 counterexample (glob variant, `src/src/worker.py`): when the command
of a claimed job cannot be launched, `subprocess.call` raises, nothing
catches it, the worker crashes, and `processed_jobs` is NOT incremented —
contradicting the claim that the failure is absorbed and the job still
counted as processed. -/
theorem glob_launch_failure_crashes :
    isCrashed run6g = true ∧ processedOf run6g = 0 := by
  refine ⟨by decide, by decide⟩

/-- C6 amended (both variants): a launch failure of a claimed job's command
propagates uncaught — the worker process crashes and `processed_jobs` stays
unincremented — while the already-created lock marker remains on disk, so
the job is never retried by this mechanism.  Shown here on the regex
variant. -/
theorem regex_launch_failure_crash_lock_kept :
    isCrashed run6r = true ∧ processedOf run6r = 0 ∧
    (["j", "a", "worker.lock"] : FPath) ∈ (fsOf run6r).files := by
  refine ⟨by decide, by decide, by decide⟩

/-- C7 counterexample (regex variant, `src/worker.py`): a configured basepath
that does not exist is NOT yielded as an empty candidate sequence —
`os.listdir` raises an uncaught `FileNotFoundError` and the whole run
aborts. -/
theorem regex_missing_basepath_crashes :
    isCrashed run7 = true ∧ processedOf run7 = 0 := by
  refine ⟨by decide, by decide⟩

/-- C8 (code bug, `src/worker.py`): a malformed `--maxjobs` value is not a
fatal configuration error in the regex variant — `parse()` assigns the raw
string to a discarded local without conversion, so `--maxjobs=abc` parses
just like `--maxjobs=2`, both leaving the enforced limit at `sys.maxsize`.
The glob variant, by contrast, really applies `int(a)` and dies on the
malformed value. -/
theorem regex_malformed_maxjobs_accepted :
    regexCli ["--maxjobs=abc", "-b", "jobs", "-p", "x", "-c", "run"]
      = .ok ⟨["jobs"], ["x"], ["run"], sysMaxsize, (sysMaxsize : Rat)⟩ ∧
    regexCli ["--maxjobs=2", "-b", "jobs", "-p", "x", "-c", "run"]
      = .ok ⟨["jobs"], ["x"], ["run"], sysMaxsize, (sysMaxsize : Rat)⟩ ∧
    isValueErr (globCli ["--maxjobs=abc", "-p", "x", "-c", "run"]) = true := by
  refine ⟨by decide, by decide, by decide⟩

/-- C9 (code bug, `src/src/worker.py`): the glob variant's short optstring is
`'vh:p:c:'`, so `-h` requires an argument; a bare `-h` makes `getopt` raise
`GetoptError` ("option -h requires argument"), which nothing catches — a
traceback and non-zero exit, with no usage text.  `--help`, `-h` with a
following token, and the regex variant's `-h` all print and exit zero as
documented. -/
theorem glob_bare_h_getopt_error :
    isGetoptErr (globCli ["-h"]) = true ∧ globCli ["--help"] = .exitZero ∧
    globCli ["-h", "x"] = .exitZero ∧ regexCli ["-h"] = .exitZero ∧
    regexCli ["-v"] = .exitZero := by
  refine ⟨by decide, by decide, by decide, by decide, by decide⟩

/-- C7 amended, glob side: a pattern with no existing matching entry (in
particular any pattern under a non-existent search root) contributes an
empty candidate sequence and the pass simply continues with the remaining
patterns — running the pass with that pattern in front is the same as
running it without. -/
theorem glob_empty_pattern_skipped (env : GlobEnv) (home : FPath) (m : FPath → Bool)
    (ms : List (FPath → Bool)) (st : WState) (h : globList st.fs m = []) :
    globPatterns env home (m :: ms) st = globPatterns env home ms st := by
  simp only [globPatterns, h, globEntries]

/-- Witness for C7's amended glob-side statement: a never-matching pattern in
front of an empty pattern list changes nothing. -/
theorem glob_empty_pattern_skipped_witness :
    globPatterns ⟨"worker", fun _ => false, fun _ => ExecBehavior.ret 0, fun _ => 0,
        sysMaxsize, none⟩ ["h"] [fun _ => false] ⟨⟨[], [["h"]]⟩, ["h"], false, 0, 0⟩
      = globPatterns ⟨"worker", fun _ => false, fun _ => ExecBehavior.ret 0, fun _ => 0,
        sysMaxsize, none⟩ ["h"] [] ⟨⟨[], [["h"]]⟩, ["h"], false, 0, 0⟩ :=
  glob_empty_pattern_skipped _ _ _ _ _ (by decide)

/-! ## Working-directory restoration in the regex variant (C5) -/

theorem addFile_dirs (fs : FS) (p : FPath) : (addFile fs p).dirs = fs.dirs := by
  unfold addFile
  split <;> rfl

theorem openWrite_dirs (fs fs2 : FS) (p : FPath) (h : openWrite fs p = some fs2) :
    fs2.dirs = fs.dirs := by
  unfold openWrite at h
  split at h
  · cases h
    exact addFile_dirs fs p
  · cases h

theorem finChdir_some (home : FPath) (st : WState) (h : home ∈ st.fs.dirs) :
    finChdir home st = some { st with cwd := home } := by
  simp [finChdir, h]

theorem regexChecks_state (env : RegexEnv) (st : WState) :
    stepState (regexChecks env st) = { st with ticks := st.ticks + 1 } := by
  simp only [regexChecks]
  split_ifs <;> rfl

theorem finallyThen_state (env : RegexEnv) (home : FPath) (st : WState)
    (h : home ∈ st.fs.dirs) :
    stepState (finallyThen env home st) = { st with cwd := home, ticks := st.ticks + 1 } := by
  simp only [finallyThen, finChdir_some home st h]
  exact regexChecks_state env { st with cwd := home }

theorem finallyCrash_state (home : FPath) (st : WState) (h : home ∈ st.fs.dirs) :
    stepState (finallyCrash home st) = { st with cwd := home } := by
  simp only [finallyCrash, finChdir_some home st h]
  rfl

theorem regexRunJob_cwd (env : RegexEnv) (home jobdir : FPath) (st : WState)
    (h : home ∈ st.fs.dirs) :
    (stepState (regexRunJob env home jobdir st)).cwd = home ∧
    (stepState (regexRunJob env home jobdir st)).fs.dirs = st.fs.dirs := by
  unfold regexRunJob
  split
  case isTrue h1 =>
    cases hw1 : openWrite st.fs (jobdir ++ ["worker.out"]) with
    | none =>
      simp only [hw1]
      rw [finallyCrash_state home { st with cwd := jobdir } h]
      exact ⟨rfl, rfl⟩
    | some fs4 =>
      have hd4 : fs4.dirs = st.fs.dirs := openWrite_dirs _ _ _ hw1
      cases hw2 : openWrite fs4 (jobdir ++ ["worker.err"]) with
      | none =>
        simp only [hw1, hw2]
        rw [finallyCrash_state home _ (by simp [hd4] at h ⊢; exact h)]
        simp [hd4]
      | some fs5 =>
        have hd5 : fs5.dirs = fs4.dirs := openWrite_dirs _ _ _ hw2
        cases hx : env.exec jobdir with
        | raiseErr =>
          simp only [hw1, hw2, hx]
          rw [finallyCrash_state home _ (by simp [hd5, hd4]; exact h)]
          simp [hd5, hd4]
        | ret c =>
          simp only [hw1, hw2, hx]
          rw [finallyThen_state env home _ (by simp [hd5, hd4]; exact h)]
          simp [hd5, hd4]
  case isFalse h1 =>
    simp [finallyCrash_state home st h]

theorem ite_addFile_dirs (c : Prop) [Decidable c] (fs : FS) (p : FPath) :
    (if c then addFile fs p else fs).dirs = fs.dirs := by
  split <;> simp [addFile_dirs]

theorem regexStep_cwd (env : RegexEnv) (home basepath : FPath) (pattern name : String)
    (st : WState) (hdir : home ∈ st.fs.dirs) (hcwd : st.cwd = home) :
    (stepState (regexStep env home basepath pattern name st)).cwd = home ∧
    (stepState (regexStep env home basepath pattern name st)).fs.dirs = st.fs.dirs := by
  simp only [regexStep]
  split
  case isFalse => exact ⟨hcwd, rfl⟩
  case isTrue =>
    split
    case isFalse => exact ⟨hcwd, rfl⟩
    case isTrue =>
      split
      case isTrue => exact ⟨hcwd, rfl⟩
      case isFalse hC =>
        split
        case isTrue hR =>
          rw [if_pos (mem_addFile_self st.fs (basepath ++ [name, "worker.lock"]))]
          rw [finallyThen_state env home _ (by simpa [addFile_dirs] using hdir)]
          simp [addFile_dirs]
        case isFalse hR =>
          split
          case isTrue hE =>
            refine ⟨(regexRunJob_cwd env home _ _
              (by simpa [addFile_dirs] using hdir)).1, ?_⟩
            rw [(regexRunJob_cwd env home _ _
              (by simpa [addFile_dirs] using hdir)).2]
            simp [addFile_dirs]
          case isFalse hE =>
            rw [finallyCrash_state home
              { fs := st.fs, cwd := st.cwd, keep_looping := true,
                processed_jobs := st.processed_jobs, ticks := st.ticks } hdir]
            exact ⟨rfl, rfl⟩

theorem regexEntries_cwd (env : RegexEnv) (home b : FPath) (p : String) :
    ∀ (names : List String) (st : WState), home ∈ st.fs.dirs → st.cwd = home →
      (stepState (regexEntries env home b p names st)).cwd = home ∧
      (stepState (regexEntries env home b p names st)).fs.dirs = st.fs.dirs := by
  intro names
  induction names with
  | nil => intro st h1 h2; exact ⟨h2, rfl⟩
  | cons n ns ih =>
    intro st h1 h2
    have hstep := regexStep_cwd env home b p n st h1 h2
    cases hs : regexStep env home b p n st with
    | cont st1 =>
      rw [hs] at hstep
      simp only [stepState] at hstep
      have hrec := ih st1 (hstep.2.symm ▸ h1) hstep.1
      simp only [regexEntries, hs]
      exact ⟨hrec.1, hrec.2.trans hstep.2⟩
    | brk st1 =>
      rw [hs] at hstep
      simp only [regexEntries, hs]
      exact hstep
    | stop o =>
      rw [hs] at hstep
      simp only [regexEntries, hs]
      exact hstep

theorem regexPairs_cwd (env : RegexEnv) (home : FPath) :
    ∀ (pairs : List (FPath × String)) (st : WState), home ∈ st.fs.dirs → st.cwd = home →
      (stepState (regexPairs env home pairs st)).cwd = home ∧
      (stepState (regexPairs env home pairs st)).fs.dirs = st.fs.dirs := by
  intro pairs
  induction pairs with
  | nil => intro st h1 h2; exact ⟨h2, rfl⟩
  | cons bp rest ih =>
    intro st h1 h2
    obtain ⟨b, p⟩ := bp
    cases hl : listdir st.fs b with
    | none =>
      simp only [regexPairs, hl]
      exact ⟨h2, rfl⟩
    | some names =>
      have hent := regexEntries_cwd env home b p names st h1 h2
      cases hs : regexEntries env home b p names st with
      | cont st1 =>
        rw [hs] at hent
        simp only [stepState] at hent
        have hrec := ih st1 (hent.2.symm ▸ h1) hent.1
        simp only [regexPairs, hl, hs]
        exact ⟨hrec.1, hrec.2.trans hent.2⟩
      | brk st1 =>
        rw [hs] at hent
        simp only [stepState] at hent
        have hrec := ih st1 (hent.2.symm ▸ h1) hent.1
        simp only [regexPairs, hl, hs]
        exact ⟨hrec.1, hrec.2.trans hent.2⟩
      | stop o =>
        rw [hs] at hent
        simp only [regexPairs, hl, hs]
        exact hent

theorem regexLoop_cwd (env : RegexEnv) (home : FPath) (pairs : List (FPath × String)) :
    ∀ (fuel : Nat) (st : WState), home ∈ st.fs.dirs → st.cwd = home →
      (outState (regexLoop env home pairs fuel st)).cwd = home := by
  intro fuel
  induction fuel with
  | zero => intro st h1 h2; exact h2
  | succ n ih =>
    intro st h1 h2
    simp only [regexLoop]
    split
    · have hp := regexPairs_cwd env home pairs { st with keep_looping := false } h1 h2
      cases hs : regexPairs env home pairs { st with keep_looping := false } with
      | cont st1 =>
        rw [hs] at hp
        simp only [stepState] at hp
        exact ih st1 (hp.2.symm ▸ h1) hp.1
      | brk st1 =>
        rw [hs] at hp
        simp only [stepState] at hp
        exact ih st1 (hp.2.symm ▸ h1) hp.1
      | stop o =>
        rw [hs] at hp
        simp only [stepState] at hp
        exact hp.1
    · exact h2

/-- C5 amended: in the regex variant (`src/worker.py`) the working directory
really is restored on every exit path — for every configuration, filesystem,
oracle behavior (including failing output-stream opens and failing command
launches) and fuel, the final working directory of the run equals the
starting one, provided only that the starting directory itself still exists
(the `finally: os.chdir(homepath)` would otherwise raise).  The glob variant
does not have this property (see the counterexample). -/
theorem regex_cwd_restored_all_paths (env : RegexEnv) (pairs : List (FPath × String))
    (fs0 : FS) (cwd0 : FPath) (fuel : Nat) (h : cwd0 ∈ fs0.dirs) :
    cwdOf (runRegexWorker env pairs fs0 cwd0 fuel) = cwd0 :=
  regexLoop_cwd env cwd0 pairs fuel ⟨fs0, cwd0, true, 0, 0⟩ h rfl

/-- Witness for C5's amended statement at a concrete benign run. -/
theorem regex_cwd_restored_all_paths_witness :
    cwdOf (runRegexWorker (envR0 sysMaxsize (sysMaxsize : Rat)) [(["gone"], "")]
      ⟨[], [["home"]]⟩ ["home"] 2) = ["home"] :=
  regex_cwd_restored_all_paths _ _ _ _ _ (by decide)

/-! ## The keep-looping pass invariant of the glob variant (C3) -/

theorem globChecks_cont (env : GlobEnv) (st s : WState)
    (h : globChecks env st = .cont s) : s = { st with ticks := st.ticks + 1 } := by
  simp only [globChecks] at h
  split at h
  · cases h
  · split at h
    · split at h
      · cases h
      · cases h
        rfl
    · cases h
      rfl

theorem globRunJob_cont_kl (env : GlobEnv) (home entry : FPath) (st s : WState)
    (h : globRunJob env home entry st = .cont s) : s.keep_looping = st.keep_looping := by
  simp only [globRunJob] at h
  split at h
  · split at h
    · cases h
    · split at h
      · cases h
      · split at h
        · cases h
        · split at h
          · rw [globChecks_cont _ _ _ h]
          · cases h
  · cases h

theorem globAttempt_cont_kl (env : GlobEnv) (home entry lockfile : FPath) (st s : WState)
    (h : globAttempt env home entry lockfile st = .cont s) :
    s.keep_looping = st.keep_looping := by
  simp only [globAttempt] at h
  split at h
  case isTrue hR =>
    rw [if_pos (mem_addFile_self st.fs lockfile)] at h
    have := globChecks_cont _ _ _ h
    subst this
    rfl
  case isFalse hR =>
    split at h
    · have := globChecks_cont _ _ _ h
      subst this
      rfl
    · have := globRunJob_cont_kl env home entry _ s h
      simpa using this

theorem globStep_cont_master (env : GlobEnv) (home entry : FPath) (st s : WState)
    (h : globStep env home entry st = .cont s) : s = st ∨ s.keep_looping = true := by
  simp only [globStep] at h
  split at h
  · split at h
    · cases h
      exact Or.inl rfl
    · right
      have := globAttempt_cont_kl _ _ _ _ _ _ h
      simpa using this
  · cases h
    exact Or.inl rfl

theorem globStep_cont_flip (env : GlobEnv) (home entry : FPath) (st s : WState)
    (h : globStep env home entry st = .cont s) (hkl : s.keep_looping = true)
    (hst : st.keep_looping = false) :
    entry ∈ st.fs.dirs ∧ (entry ++ [env.label ++ ".lock"]) ∉ st.fs.files := by
  simp only [globStep] at h
  split at h
  case isTrue hA =>
    split at h
    case isTrue hB =>
      cases h
      rw [hst] at hkl
      cases hkl
    case isFalse hB => exact ⟨hA, hB⟩
  case isFalse hA =>
    cases h
    rw [hst] at hkl
    cases hkl

theorem globStep_cont_sets (env : GlobEnv) (home entry : FPath) (st s : WState)
    (h : globStep env home entry st = .cont s) (hdir : entry ∈ st.fs.dirs)
    (hlock : (entry ++ [env.label ++ ".lock"]) ∉ st.fs.files) :
    s.keep_looping = true := by
  simp only [globStep] at h
  rw [if_pos hdir, if_neg hlock] at h
  have := globAttempt_cont_kl _ _ _ _ _ _ h
  simpa using this

theorem globEntries_cont_master (env : GlobEnv) (home : FPath) :
    ∀ (entries : List FPath) (st s : WState),
      globEntries env home entries st = .cont s → s = st ∨ s.keep_looping = true := by
  intro entries
  induction entries with
  | nil =>
    intro st s h
    simp only [globEntries] at h
    cases h
    exact Or.inl rfl
  | cons e es ih =>
    intro st s h
    cases hs : globStep env home e st with
    | cont st1 =>
      simp only [globEntries, hs] at h
      rcases globStep_cont_master env home e st st1 hs with rfl | hkl
      · exact ih st1 s h
      · rcases ih st1 s h with rfl | hkl2
        · exact Or.inr hkl
        · exact Or.inr hkl2
    | brk st1 =>
      simp only [globEntries, hs] at h
      cases h
    | stop o =>
      simp only [globEntries, hs] at h
      cases h

theorem globEntries_cont_flip (env : GlobEnv) (home : FPath) :
    ∀ (entries : List FPath) (st s : WState),
      globEntries env home entries st = .cont s → st.keep_looping = false →
      s.keep_looping = true →
      ∃ e ∈ entries, e ∈ st.fs.dirs ∧ (e ++ [env.label ++ ".lock"]) ∉ st.fs.files := by
  intro entries
  induction entries with
  | nil =>
    intro st s h hst hkl
    simp only [globEntries] at h
    cases h
    rw [hst] at hkl
    cases hkl
  | cons e es ih =>
    intro st s h hst hkl
    cases hs : globStep env home e st with
    | cont st1 =>
      simp only [globEntries, hs] at h
      rcases globStep_cont_master env home e st st1 hs with rfl | hkl1
      · rcases ih st1 s h hst hkl with ⟨e1, he1, hprops⟩
        exact ⟨e1, List.mem_cons_of_mem _ he1, hprops⟩
      · exact ⟨e, List.mem_cons_self _ _,
          globStep_cont_flip env home e st st1 hs hkl1 hst⟩
    | brk st1 =>
      simp only [globEntries, hs] at h
      cases h
    | stop o =>
      simp only [globEntries, hs] at h
      cases h

theorem globEntries_cont_sets (env : GlobEnv) (home : FPath) :
    ∀ (entries : List FPath) (st s : WState) (d : FPath),
      globEntries env home entries st = .cont s →
      (st.keep_looping = true ∨ (d ∈ entries ∧ d ∈ st.fs.dirs ∧
        (d ++ [env.label ++ ".lock"]) ∉ st.fs.files)) →
      s.keep_looping = true := by
  intro entries
  induction entries with
  | nil =>
    intro st s d h hd
    simp only [globEntries] at h
    cases h
    rcases hd with hkl | ⟨hmem, _⟩
    · exact hkl
    · cases hmem
  | cons e es ih =>
    intro st s d h hd
    cases hs : globStep env home e st with
    | cont st1 =>
      simp only [globEntries, hs] at h
      rcases hd with hkl | ⟨hmem, hdir, hlock⟩
      · rcases globStep_cont_master env home e st st1 hs with rfl | hkl1
        · exact ih st1 s d h (Or.inl hkl)
        · exact ih st1 s d h (Or.inl hkl1)
      · rcases List.mem_cons.mp hmem with rfl | hmem1
        · exact ih st1 s d h
            (Or.inl (globStep_cont_sets env home d st st1 hs hdir hlock))
        · rcases globStep_cont_master env home e st st1 hs with rfl | hkl1
          · exact ih st1 s d h (Or.inr ⟨hmem1, hdir, hlock⟩)
          · exact ih st1 s d h (Or.inl hkl1)
    | brk st1 =>
      simp only [globEntries, hs] at h
      cases h
    | stop o =>
      simp only [globEntries, hs] at h
      cases h

theorem globPatterns_cont_master (env : GlobEnv) (home : FPath) :
    ∀ (ms : List (FPath → Bool)) (st s : WState),
      globPatterns env home ms st = .cont s → s = st ∨ s.keep_looping = true := by
  intro ms
  induction ms with
  | nil =>
    intro st s h
    simp only [globPatterns] at h
    cases h
    exact Or.inl rfl
  | cons m ms ih =>
    intro st s h
    cases hs : globEntries env home (globList st.fs m) st with
    | cont st1 =>
      simp only [globPatterns, hs] at h
      rcases globEntries_cont_master env home _ st st1 hs with rfl | hkl
      · exact ih st1 s h
      · rcases ih st1 s h with rfl | hkl2
        · exact Or.inr hkl
        · exact Or.inr hkl2
    | brk st1 =>
      simp only [globPatterns, hs] at h
      cases h
    | stop o =>
      simp only [globPatterns, hs] at h
      cases h

theorem globPatterns_cont_flip (env : GlobEnv) (home : FPath) :
    ∀ (ms : List (FPath → Bool)) (st s : WState),
      globPatterns env home ms st = .cont s → st.keep_looping = false →
      s.keep_looping = true →
      ∃ m ∈ ms, ∃ d, d ∈ st.fs.dirs ∧ m d = true ∧
        (d ++ [env.label ++ ".lock"]) ∉ st.fs.files := by
  intro ms
  induction ms with
  | nil =>
    intro st s h hst hkl
    simp only [globPatterns] at h
    cases h
    rw [hst] at hkl
    cases hkl
  | cons m ms ih =>
    intro st s h hst hkl
    cases hs : globEntries env home (globList st.fs m) st with
    | cont st1 =>
      simp only [globPatterns, hs] at h
      rcases globEntries_cont_master env home _ st st1 hs with rfl | hkl1
      · rcases ih st1 s h hst hkl with ⟨m1, hm1, d, hd⟩
        exact ⟨m1, List.mem_cons_of_mem _ hm1, d, hd⟩
      · rcases globEntries_cont_flip env home _ st st1 hs hst hkl1 with
          ⟨e, heg, hdir, hlock⟩
        have hme : m e = true := (List.mem_filter.mp heg).2
        exact ⟨m, List.mem_cons_self _ _, e, hdir, hme, hlock⟩
    | brk st1 =>
      simp only [globPatterns, hs] at h
      cases h
    | stop o =>
      simp only [globPatterns, hs] at h
      cases h

theorem globPatterns_cont_sets (env : GlobEnv) (home : FPath) :
    ∀ (ms : List (FPath → Bool)) (st s : WState) (d : FPath),
      globPatterns env home ms st = .cont s →
      (st.keep_looping = true ∨ ((∃ m ∈ ms, m d = true) ∧ d ∈ st.fs.dirs ∧
        (d ++ [env.label ++ ".lock"]) ∉ st.fs.files)) →
      s.keep_looping = true := by
  intro ms
  induction ms with
  | nil =>
    intro st s d h hd
    simp only [globPatterns] at h
    cases h
    rcases hd with hkl | ⟨⟨m, hm, _⟩, _⟩
    · exact hkl
    · cases hm
  | cons m ms ih =>
    intro st s d h hd
    cases hs : globEntries env home (globList st.fs m) st with
    | cont st1 =>
      simp only [globPatterns, hs] at h
      rcases hd with hkl | ⟨⟨m1, hm1, hmd⟩, hdir, hlock⟩
      · rcases globEntries_cont_master env home _ st st1 hs with rfl | hkl1
        · exact ih st1 s d h (Or.inl hkl)
        · exact ih st1 s d h (Or.inl hkl1)
      · rcases List.mem_cons.mp hm1 with rfl | hm1s
        · have hdg : d ∈ globList st.fs m1 :=
            List.mem_filter.mpr ⟨List.mem_append_left _ hdir, hmd⟩
          have hkl1 := globEntries_cont_sets env home _ st st1 d hs
            (Or.inr ⟨hdg, hdir, hlock⟩)
          exact ih st1 s d h (Or.inl hkl1)
        · rcases globEntries_cont_master env home _ st st1 hs with rfl | hkl1
          · exact ih st1 s d h (Or.inr ⟨⟨m1, hm1s, hmd⟩, hdir, hlock⟩)
          · exact ih st1 s d h (Or.inl hkl1)
    | brk st1 =>
      simp only [globPatterns, hs] at h
      cases h
    | stop o =>
      simp only [globPatterns, hs] at h
      cases h

/-- C3: in every completed glob-variant pass started with `keep_looping =
false`, `keep_looping` ends `true` exactly when the pass observed at least
one candidate directory (an existing directory matching one of the patterns)
without an existing lock marker — independent of the racing oracle, i.e. of
who wins the subsequent claim; a candidate observed with an existing lock
never sets it; and a completed pass in which `keep_looping` stayed `false`
leaves the state (in particular the filesystem) unchanged and makes the main
loop terminate with "Done". -/
theorem glob_pass_keep_looping_iff (env : GlobEnv) (home : FPath)
    (ms : List (FPath → Bool)) (st0 s : WState)
    (h0 : st0.keep_looping = false)
    (hpass : globPatterns env home ms st0 = .cont s) :
    (s.keep_looping = true ↔
      ∃ m ∈ ms, ∃ d, d ∈ st0.fs.dirs ∧ m d = true ∧
        (d ++ [env.label ++ ".lock"]) ∉ st0.fs.files) ∧
    (s.keep_looping = false → s = st0 ∧ s.fs = st0.fs) ∧
    (s.keep_looping = false → ∀ fuel, globLoop env home ms (fuel + 1) s = .finished s) := by
  refine ⟨⟨fun hkl => globPatterns_cont_flip env home ms st0 s hpass h0 hkl,
    fun hex => ?_⟩, fun hkl => ?_, fun hkl fuel => ?_⟩
  · rcases hex with ⟨m, hm, d, hdir, hmd, hlock⟩
    exact globPatterns_cont_sets env home ms st0 s d hpass
      (Or.inr ⟨⟨m, hm, hmd⟩, hdir, hlock⟩)
  · rcases globPatterns_cont_master env home ms st0 s hpass with rfl | h1
    · exact ⟨rfl, rfl⟩
    · rw [h1] at hkl
      cases hkl
  · simp [globLoop, hkl]

/-- Witness for C3 at a completed pass over one pattern whose only matching
directory is already locked: the pass reports no new work, changes nothing,
and the loop terminates. -/
theorem glob_pass_keep_looping_iff_witness :
    (stC3.keep_looping = true ↔
      ∃ m ∈ [mC3], ∃ d, d ∈ stC3.fs.dirs ∧ m d = true ∧
        (d ++ [envC3.label ++ ".lock"]) ∉ stC3.fs.files) ∧
    (stC3.keep_looping = false → stC3 = stC3 ∧ stC3.fs = stC3.fs) ∧
    (stC3.keep_looping = false →
      ∀ fuel, globLoop envC3 ["h"] [mC3] (fuel + 1) stC3 = .finished stC3) :=
  glob_pass_keep_looping_iff envC3 ["h"] [mC3] stC3 stC3 rfl (by decide)
